import Mathlib

/-!
Verification development for the mcp-golang HTTP transport layer and server
pagination.

The definitions below are shallow embeddings of the Go source:

* `transport/types.go`: the wire structs (`BaseJSONRPCRequest`,
  `BaseJSONRPCNotification`, `BaseJSONRPCResponse`, `BaseJSONRPCError`),
  the tagged union `BaseJsonRpcMessage` with its smart constructors, and
  `MarshalJSON`.
* `transport/http/common.go`: `BaseTransport` — the slot-probing loop,
  the unmarshal cascade of `HandleMessage`, `Send`, and `Close`.
* `transport/http/http.go`: `HTTPTransport.handleRequest` (method check,
  body read, bridging, marshaling of the correlated response).
* the `baseTransport` variant (`handleMessage` driven by a single
  `JSONRPCCommon` envelope and a type switch).

JSON values are modelled by the inductive `JsonValue`; a request body is
`Option JsonValue`, where `none` stands for bytes that are not valid JSON.
Go's `encoding/json` behaviour for the specific target structs is modelled
field by field: absent fields keep the zero value, a present field of an
incompatible type makes the whole unmarshal fail, `null` into a struct or
pointer target is a no-op, and unknown fields are ignored.
-/

/-- A JSON document, as far as the wire structs can observe it. -/
inductive JsonValue where
  | null
  | bool (b : Bool)
  | num (n : Int)
  | str (s : String)
  | arr (elems : List JsonValue)
  | obj (fields : List (String × JsonValue))

/-- `transport/types.go`: `BaseJSONRPCRequest`. `Params` is a raw message
with `omitempty`; `none` models the nil slice that is omitted. -/
structure BaseJSONRPCRequest where
  Id : Int
  Jsonrpc : String
  Method : String
  Params : Option JsonValue

/-- `transport/types.go`: `BaseJSONRPCNotification`. -/
structure BaseJSONRPCNotification where
  Jsonrpc : String
  Method : String
  Params : Option JsonValue

/-- `transport/types.go`: `BaseJSONRPCResponse`. `Result` has no
`omitempty`, so it is always marshaled; a nil raw message marshals as
`null`, which `JsonValue.null` represents. -/
structure BaseJSONRPCResponse where
  Id : Int
  Jsonrpc : String
  Result : JsonValue

/-- `transport/types.go`: `BaseJSONRPCErrorInner`. -/
structure BaseJSONRPCErrorInner where
  Code : Int
  Data : Option JsonValue
  Message : String

/-- `transport/types.go`: `BaseJSONRPCError`. -/
structure BaseJSONRPCError where
  Error : BaseJSONRPCErrorInner
  Id : Int
  Jsonrpc : String

/-- `transport/types.go`: `BaseMessageType`. -/
inductive BaseMessageType where
  | request
  | notif
  | response
  | errorType

/-- `transport/types.go`: `BaseJsonRpcMessage`. The Go field `Type` is a
reserved word in Lean, hence `MsgType`. -/
structure BaseJsonRpcMessage where
  MsgType : BaseMessageType
  JsonRpcRequest : Option BaseJSONRPCRequest
  JsonRpcNotification : Option BaseJSONRPCNotification
  JsonRpcResponse : Option BaseJSONRPCResponse
  JsonRpcError : Option BaseJSONRPCError

/-- `transport/types.go`: `NewBaseMessageRequest`. -/
def NewBaseMessageRequest (request : BaseJSONRPCRequest) : BaseJsonRpcMessage :=
  ⟨BaseMessageType.request, some request, none, none, none⟩

/-- `transport/types.go`: `NewBaseMessageNotification`. -/
def NewBaseMessageNotification (n : BaseJSONRPCNotification) : BaseJsonRpcMessage :=
  ⟨BaseMessageType.notif, none, some n, none, none⟩

/-- `transport/types.go`: `NewBaseMessageResponse`. -/
def NewBaseMessageResponse (response : BaseJSONRPCResponse) : BaseJsonRpcMessage :=
  ⟨BaseMessageType.response, none, none, some response, none⟩

/-- `transport/types.go`: `NewBaseMessageError` (it copies the three
fields into a fresh struct). -/
def NewBaseMessageError (e : BaseJSONRPCError) : BaseJsonRpcMessage :=
  ⟨BaseMessageType.errorType, none, none, none, some ⟨e.Error, e.Id, e.Jsonrpc⟩⟩

/-- Field lookup in a marshaled JSON object, first occurrence wins. -/
def lookupField : List (String × JsonValue) → String → Option JsonValue
  | [], _ => none
  | (k, v) :: rest, name => if k = name then some v else lookupField rest name

/-- Go unmarshal of an `int64`-typed struct field: absent or `null` keeps
the zero value, a number is taken verbatim, anything else is a type error
(`none`). -/
def getIntField (fields : List (String × JsonValue)) (name : String) : Option Int :=
  match lookupField fields name with
  | none => some 0
  | some JsonValue.null => some 0
  | some (JsonValue.num n) => some n
  | some _ => none

/-- Go unmarshal of a `string`-typed struct field. -/
def getStrField (fields : List (String × JsonValue)) (name : String) : Option String :=
  match lookupField fields name with
  | none => some ""
  | some JsonValue.null => some ""
  | some (JsonValue.str s) => some s
  | some _ => none

/-- Go unmarshal of a `json.RawMessage` field: any present value is kept
verbatim (including `null`), an absent field leaves the nil slice. -/
def getRawField (fields : List (String × JsonValue)) (name : String) : Option JsonValue :=
  lookupField fields name

/-- Go unmarshal of a `*RequestId` field: absent or `null` leaves the nil
pointer, a number allocates, anything else is a type error. -/
def getIdPtrField (fields : List (String × JsonValue)) : Option (Option Int) :=
  match lookupField fields "id" with
  | none => some none
  | some JsonValue.null => some none
  | some (JsonValue.num n) => some (some n)
  | some _ => none

/-- Go unmarshal of the nested `BaseJSONRPCErrorInner` object. -/
def unmarshalErrorInner (fields : List (String × JsonValue)) : Option BaseJSONRPCErrorInner :=
  match getIntField fields "code", getStrField fields "message" with
  | some code, some message => some ⟨code, getRawField fields "data", message⟩
  | _, _ => none

/-- Go unmarshal of the value-typed `error` field of `BaseJSONRPCError`:
absent or `null` keeps the zero inner struct. -/
def getErrValueField (fields : List (String × JsonValue)) : Option BaseJSONRPCErrorInner :=
  match lookupField fields "error" with
  | none => some ⟨0, none, ""⟩
  | some JsonValue.null => some ⟨0, none, ""⟩
  | some (JsonValue.obj inner) => unmarshalErrorInner inner
  | some _ => none

/-- Go unmarshal of the pointer-typed `Error` field of `JSONRPCCommon`:
absent or `null` leaves the nil pointer. -/
def getErrPtrField (fields : List (String × JsonValue)) : Option (Option BaseJSONRPCErrorInner) :=
  match lookupField fields "error" with
  | none => some none
  | some JsonValue.null => some none
  | some (JsonValue.obj inner) =>
      match unmarshalErrorInner inner with
      | some e => some (some e)
      | none => none
  | some _ => none

/-- `json.Unmarshal(body, &request)` for `BaseJSONRPCRequest`: succeeds on
any JSON object whose recognized fields have compatible types (and on
`null`, which is a no-op). -/
def unmarshalRequest : JsonValue → Option BaseJSONRPCRequest
  | JsonValue.null => some ⟨0, "", "", none⟩
  | JsonValue.obj fields =>
      match getIntField fields "id", getStrField fields "jsonrpc", getStrField fields "method" with
      | some id, some jsonrpc, some method =>
          some ⟨id, jsonrpc, method, getRawField fields "params"⟩
      | _, _, _ => none
  | _ => none

/-- `json.Unmarshal(body, &notification)` for `BaseJSONRPCNotification`;
an `id` field, of any type, is an unknown field and is ignored. -/
def unmarshalNotification : JsonValue → Option BaseJSONRPCNotification
  | JsonValue.null => some ⟨"", "", none⟩
  | JsonValue.obj fields =>
      match getStrField fields "jsonrpc", getStrField fields "method" with
      | some jsonrpc, some method => some ⟨jsonrpc, method, getRawField fields "params"⟩
      | _, _ => none
  | _ => none

/-- `json.Unmarshal(body, &response)` for `BaseJSONRPCResponse`. -/
def unmarshalResponse : JsonValue → Option BaseJSONRPCResponse
  | JsonValue.null => some ⟨0, "", JsonValue.null⟩
  | JsonValue.obj fields =>
      match getIntField fields "id", getStrField fields "jsonrpc" with
      | some id, some jsonrpc =>
          some ⟨id, jsonrpc, (getRawField fields "result").getD JsonValue.null⟩
      | _, _ => none
  | _ => none

/-- `json.Unmarshal(body, &errorResponse)` for `BaseJSONRPCError`. -/
def unmarshalError : JsonValue → Option BaseJSONRPCError
  | JsonValue.null => some ⟨⟨0, none, ""⟩, 0, ""⟩
  | JsonValue.obj fields =>
      match getErrValueField fields, getIntField fields "id", getStrField fields "jsonrpc" with
      | some e, some id, some jsonrpc => some ⟨e, id, jsonrpc⟩
      | _, _, _ => none
  | _ => none

/-- The `JSONRPCCommon` envelope the `baseTransport` variant decodes into:
one struct able to hold any of the four shapes, with pointer-typed `Id`
and `Error` so that presence is observable. -/
structure JSONRPCCommon where
  Jsonrpc : String
  Method : String
  Id : Option Int
  Params : Option JsonValue
  Result : Option JsonValue
  Error : Option BaseJSONRPCErrorInner

/-- `json.Unmarshal(body, &tmp)` for `JSONRPCCommon`. -/
def unmarshalCommon : JsonValue → Option JSONRPCCommon
  | JsonValue.null => some ⟨"", "", none, none, none, none⟩
  | JsonValue.obj fields =>
      match getStrField fields "jsonrpc", getStrField fields "method",
            getIdPtrField fields, getErrPtrField fields with
      | some jsonrpc, some method, some id, some e =>
          some ⟨jsonrpc, method, id, getRawField fields "params", getRawField fields "result", e⟩
      | _, _, _, _ => none
  | _ => none

/-- Appends an `omitempty` raw field when present. -/
def optField (name : String) : Option JsonValue → List (String × JsonValue)
  | none => []
  | some v => [(name, v)]

/-- `json.Marshal` of `BaseJSONRPCRequest` (struct field order). -/
def marshalRequest (r : BaseJSONRPCRequest) : JsonValue :=
  JsonValue.obj (("id", JsonValue.num r.Id) :: ("jsonrpc", JsonValue.str r.Jsonrpc) ::
    ("method", JsonValue.str r.Method) :: optField "params" r.Params)

/-- `json.Marshal` of `BaseJSONRPCNotification`. -/
def marshalNotification (n : BaseJSONRPCNotification) : JsonValue :=
  JsonValue.obj (("jsonrpc", JsonValue.str n.Jsonrpc) :: ("method", JsonValue.str n.Method) ::
    optField "params" n.Params)

/-- `json.Marshal` of `BaseJSONRPCResponse`. -/
def marshalResponse (r : BaseJSONRPCResponse) : JsonValue :=
  JsonValue.obj [("id", JsonValue.num r.Id), ("jsonrpc", JsonValue.str r.Jsonrpc),
    ("result", r.Result)]

/-- `json.Marshal` of `BaseJSONRPCErrorInner` (`data` has `omitempty`). -/
def marshalErrorInner (e : BaseJSONRPCErrorInner) : JsonValue :=
  JsonValue.obj (("code", JsonValue.num e.Code) :: (optField "data" e.Data ++
    [("message", JsonValue.str e.Message)]))

/-- `json.Marshal` of `BaseJSONRPCError`. -/
def marshalError (e : BaseJSONRPCError) : JsonValue :=
  JsonValue.obj [("error", marshalErrorInner e.Error), ("id", JsonValue.num e.Id),
    ("jsonrpc", JsonValue.str e.Jsonrpc)]

/-- `transport/types.go`: `BaseJsonRpcMessage.MarshalJSON`. Marshaling a
nil pointer for the selected kind yields JSON `null`, as `json.Marshal`
does. -/
def marshalMessage (m : BaseJsonRpcMessage) : JsonValue :=
  match m.MsgType with
  | BaseMessageType.request =>
      match m.JsonRpcRequest with
      | some r => marshalRequest r
      | none => JsonValue.null
  | BaseMessageType.notif =>
      match m.JsonRpcNotification with
      | some n => marshalNotification n
      | none => JsonValue.null
  | BaseMessageType.response =>
      match m.JsonRpcResponse with
      | some r => marshalResponse r
      | none => JsonValue.null
  | BaseMessageType.errorType =>
      match m.JsonRpcError with
      | some e => marshalError e
      | none => JsonValue.null

/-- `transport/http/common.go` lines 72-79: the linear probe of
`HandleMessage`. `fuel` counts the remaining iterations of
`for key < 1000000`; the probe starts at 0 with fuel 1000000, so the loop
exits either at the first key not in the map or at key 1000000, which is
taken without an occupancy check. -/
def probeLoop (occ : Int → Bool) : Nat → Int → Int
  | 0, key => key
  | fuel + 1, key => if occ key then probeLoop occ fuel (key + 1) else key

/-- The key `HandleMessage` stores its response channel under, as a
function of which keys are currently in `ResponseMap`. -/
def allocKey (occ : Int → Bool) : Int :=
  probeLoop occ 1000000 0

/-- Result of the unmarshal cascade of `BaseTransport.HandleMessage`
(`common.go` lines 85-144): request, then notification, then response,
then error; `undeserialized` when all four fail. -/
inductive CascadeClass where
  | request (r : BaseJSONRPCRequest)
  | notif (n : BaseJSONRPCNotification)
  | response (r : BaseJSONRPCResponse)
  | errorMsg (e : BaseJSONRPCError)
  | undeserialized

/-- The cascade itself. `none` models a body that is not valid JSON, on
which every `json.Unmarshal` fails. -/
def cascadeClassify : Option JsonValue → CascadeClass
  | none => CascadeClass.undeserialized
  | some j =>
    match unmarshalRequest j with
    | some r => CascadeClass.request r
    | none =>
      match unmarshalNotification j with
      | some n => CascadeClass.notif n
      | none =>
        match unmarshalResponse j with
        | some r => CascadeClass.response r
        | none =>
          match unmarshalError j with
          | some e => CascadeClass.errorMsg e
          | none => CascadeClass.undeserialized

/-- What `BaseTransport.HandleMessage` has done by the time it reaches the
blocking receive: the allocated key, the map with the new channel stored,
the messages passed to the message handler, and the saved original id
(`prevId`, set only on the request branch). -/
structure HandlePhase where
  key : Int
  mapAfter : Int → Bool
  calls : List BaseJsonRpcMessage
  prevId : Option Int

/-- `common.go` lines 71-144: allocate a key, store a channel under it,
then run the unmarshal cascade; on the request branch the message id is
rewritten to the key before the handler is invoked. Every branch falls
through to the blocking receive. -/
def handleMessagePhase (S : Int → Bool) (body : Option JsonValue) : HandlePhase :=
  let key := allocKey S
  let S1 : Int → Bool := fun k => if k = key then true else S k
  match cascadeClassify body with
  | CascadeClass.request r =>
      ⟨key, S1, [NewBaseMessageRequest { r with Id := key }], some r.Id⟩
  | CascadeClass.notif n => ⟨key, S1, [NewBaseMessageNotification n], none⟩
  | CascadeClass.response r => ⟨key, S1, [NewBaseMessageResponse r], none⟩
  | CascadeClass.errorMsg e => ⟨key, S1, [NewBaseMessageError e], none⟩
  | CascadeClass.undeserialized => ⟨key, S1, [], none⟩

/-- `common.go` lines 146-153: the suspended call resumes once a message
is delivered to its channel; it deletes its key and, when `prevId` is set,
writes the original id through `responseToUse.JsonRpcResponse.Id` — a nil
pointer dereference (`none` here) when the delivered message carries no
`JsonRpcResponse`. -/
def handleMessageComplete (ph : HandlePhase) (delivered : BaseJsonRpcMessage) :
    Option (BaseJsonRpcMessage × (Int → Bool)) :=
  let S2 : Int → Bool := fun k => if k = ph.key then false else ph.mapAfter k
  match ph.prevId with
  | none => some (delivered, S2)
  | some pid =>
      match delivered.JsonRpcResponse with
      | none => none
      | some resp => some ({ delivered with JsonRpcResponse := some { resp with Id := pid } }, S2)

/-- Outcome of `BaseTransport.Send` (`common.go` lines 29-37). -/
inductive SendOutcome where
  | nilPanic
  | errNoChannel
  | delivered (key : Int)

/-- `BaseTransport.Send`: reads `message.JsonRpcResponse.Id` — a nil
pointer dereference unless the message carries a `JsonRpcResponse` — then
delivers on the channel under that key, or returns an error when none is
registered. The map is returned unchanged: `Send` never mutates it. -/
def sendBase (S : Int → Bool) (m : BaseJsonRpcMessage) : SendOutcome × (Int → Bool) :=
  match m.JsonRpcResponse with
  | none => (SendOutcome.nilPanic, S)
  | some r => if S r.Id then (SendOutcome.delivered r.Id, S) else (SendOutcome.errNoChannel, S)

/-- Observable effects of `BaseTransport.Close` (`common.go` lines
40-45): the response map afterwards, the messages it delivered to pending
channels, and whether the close handler ran. -/
structure CloseResult where
  mapAfter : Int → Bool
  deliveries : List (Int × BaseJsonRpcMessage)
  closeHandlerCalled : Bool

/-- `BaseTransport.Close`: invokes the close handler when one is set and
returns nil. It touches neither the response map nor any channel. -/
def closeBase (S : Int → Bool) (hasCloseHandler : Bool) : CloseResult :=
  ⟨S, [], hasCloseHandler⟩

/-- Phase an HTTP call to `HTTPTransport.handleRequest`
(`transport/http/http.go` lines 99-206) reaches before any rendezvous:
an early error status, or suspension inside the bridge. -/
inductive HttpPhase where
  | earlyStatus (status : Nat)
  | waiting (ph : HandlePhase)

/-- `handleRequest` up to the blocking receive: non-POST yields 405, a
failed body read yields 400, anything else enters the bridge. -/
def handleRequestPhase (isPost : Bool) (readResult : Except Unit (Option JsonValue))
    (S : Int → Bool) : HttpPhase :=
  if isPost then
    match readResult with
    | Except.error _ => HttpPhase.earlyStatus 400
    | Except.ok body => HttpPhase.waiting (handleMessagePhase S body)
  else HttpPhase.earlyStatus 405

/-- `handleRequest` after the receive: marshal the correlated message and
write it with status 200 (500 on marshal failure; `none` when the
completion itself dereferences a nil `JsonRpcResponse`). -/
def handleRequestComplete (ph : HandlePhase) (delivered : BaseJsonRpcMessage) :
    Option (Nat × JsonValue × (Int → Bool)) :=
  match handleMessageComplete ph delivered with
  | none => none
  | some (msg, S2) => some (200, marshalMessage msg, S2)

/-- Classification performed by the `baseTransport.handleMessage` variant:
the type switch over the decoded `JSONRPCCommon` envelope, in source
order. -/
inductive CommonClass where
  | request (origId : Int)
  | notif
  | response (id : Int) (result : JsonValue)
  | errorResp (id : Int) (e : BaseJSONRPCErrorInner)
  | unrecognized

/-- The switch of `baseTransport.handleMessage`: method and id present ⇒
request; method present, id absent ⇒ notification; result and id present
⇒ response; error and id present ⇒ error response; otherwise the
unrecognized-type error. -/
def classifyCommon (e : JSONRPCCommon) : CommonClass :=
  if e.Method ≠ "" ∧ e.Id.isSome then CommonClass.request (e.Id.getD 0)
  else if e.Method ≠ "" ∧ e.Id.isNone then CommonClass.notif
  else if e.Result.isSome ∧ e.Id.isSome then
    CommonClass.response (e.Id.getD 0) (e.Result.getD JsonValue.null)
  else if e.Error.isSome ∧ e.Id.isSome then
    CommonClass.errorResp (e.Id.getD 0) (e.Error.getD ⟨0, none, ""⟩)
  else CommonClass.unrecognized

/-- Decoding of one inbound body as the `baseTransport` variant performs
it: parse the `JSONRPCCommon` envelope, classify, and rebuild the struct
of the recognized kind (id rewriting excluded — that belongs to the slot
bookkeeping, not to decoding). -/
def decodeMessage (j : JsonValue) : Option BaseJsonRpcMessage :=
  match unmarshalCommon j with
  | none => none
  | some e =>
      match classifyCommon e with
      | CommonClass.request i =>
          some (NewBaseMessageRequest ⟨i, e.Jsonrpc, e.Method, e.Params⟩)
      | CommonClass.notif =>
          some (NewBaseMessageNotification ⟨e.Jsonrpc, e.Method, e.Params⟩)
      | CommonClass.response i r =>
          some (NewBaseMessageResponse ⟨i, e.Jsonrpc, r⟩)
      | CommonClass.errorResp i er =>
          some (NewBaseMessageError ⟨er, i, e.Jsonrpc⟩)
      | CommonClass.unrecognized => none

/-- One call to the `baseTransport.handleMessage` variant: the allocated
key, the Go return value, the response map afterwards, the messages passed
to the message handler, any message forwarded to another call's channel,
and whether this call blocked on its own channel. -/
structure H2Result where
  key : Int
  ret : Except String (Option BaseJsonRpcMessage)
  finalMap : Int → Bool
  calls : List BaseJsonRpcMessage
  forwarded : Option (Int × BaseJsonRpcMessage)
  waited : Bool

/-- The `baseTransport.handleMessage` variant. A slot is allocated before
the body is parsed. Only the request branch waits on its channel and
deletes its key afterwards; the parse-failure, notification, response and
error branches all return with the freshly allocated slot still in the
map. `delivered` is the message the request branch eventually receives
from `Send`; the id restore is skipped when it has no `JsonRpcResponse`. -/
def handleMessage2 (S : Int → Bool) (body : Option JsonValue)
    (delivered : BaseJsonRpcMessage) : H2Result :=
  let key := allocKey S
  let S1 : Int → Bool := fun k => if k = key then true else S k
  match body with
  | none => ⟨key, Except.error "failed to parse JSON", S1, [], none, false⟩
  | some j =>
    match unmarshalCommon j with
    | none => ⟨key, Except.error "failed to parse JSON", S1, [], none, false⟩
    | some e =>
      match classifyCommon e with
      | CommonClass.request origId =>
          let request : BaseJSONRPCRequest := ⟨key, e.Jsonrpc, e.Method, e.Params⟩
          let S2 : Int → Bool := fun k => if k = key then false else S1 k
          let restored :=
            match delivered.JsonRpcResponse with
            | some resp => { delivered with JsonRpcResponse := some { resp with Id := origId } }
            | none => delivered
          ⟨key, Except.ok (some restored), S2, [NewBaseMessageRequest request], none, true⟩
      | CommonClass.notif =>
          ⟨key, Except.ok none, S1,
            [NewBaseMessageNotification ⟨e.Jsonrpc, e.Method, e.Params⟩], none, false⟩
      | CommonClass.response i r =>
          if S1 i then
            ⟨key, Except.ok none, S1, [], some (i, NewBaseMessageResponse ⟨i, e.Jsonrpc, r⟩), false⟩
          else ⟨key, Except.error "no matching request for response", S1, [], none, false⟩
      | CommonClass.errorResp i er =>
          if S1 i then
            ⟨key, Except.ok none, S1, [], some (i, NewBaseMessageError ⟨er, i, e.Jsonrpc⟩), false⟩
          else ⟨key, Except.error "no matching request for error response", S1, [], none, false⟩
      | CommonClass.unrecognized =>
          ⟨key, Except.error "failed to unmarshal JSON-RPC message, unrecognized type",
            S1, [], none, false⟩

/-- The classification the specification describes, in its stated priority
order: method without id ⇒ notification, method with id ⇒ request, error
with id ⇒ error, result with id ⇒ response. Stated from the spec's words,
for comparison with `classifyCommon`. -/
def specClassify (e : JSONRPCCommon) : CommonClass :=
  if e.Method ≠ "" ∧ e.Id.isNone then CommonClass.notif
  else if e.Method ≠ "" ∧ e.Id.isSome then CommonClass.request (e.Id.getD 0)
  else if e.Error.isSome ∧ e.Id.isSome then
    CommonClass.errorResp (e.Id.getD 0) (e.Error.getD ⟨0, none, ""⟩)
  else if e.Result.isSome ∧ e.Id.isSome then
    CommonClass.response (e.Id.getD 0) (e.Result.getD JsonValue.null)
  else CommonClass.unrecognized

/-- Lexicographic order on registered names, decided on the underlying
character lists. -/
def nameLe (a b : String) : Prop := a.data ≤ b.data

instance : DecidableRel nameLe := fun a b => inferInstanceAs (Decidable (a.data ≤ b.data))

instance : IsTotal String nameLe := ⟨fun a b => le_total a.data b.data⟩

instance : IsTrans String nameLe := ⟨fun _ _ _ h1 h2 => le_trans h1 h2⟩

/-- Modelled from the spec: `Server.handleListTools` — the server-side
list/pagination handler is not present under src (only its test,
`TestHandleListToolsPagination`, is). Per §4.6: sort all registered keys
lexicographically by name, locate the first key strictly greater than the
supplied cursor (or the first key overall if no cursor), return up to
`limit` consecutive keys, and set `nextCursor` to the last returned key if
further keys remain, else omit it; an unrecognized cursor fails with an
invalid-cursor error. -/
def handleListTools (names : List String) (cursor : Option String) (lim : Option Nat) :
    Except String (List String × Option String) :=
  if cursor.all (fun c => decide (c ∈ names)) then
    let sorted := names.insertionSort nameLe
    let rest :=
      match cursor with
      | none => sorted
      | some c => sorted.dropWhile (fun k => decide (nameLe k c))
    let page := match lim with | none => rest | some l => rest.take l
    let nextCursor := if page.length < rest.length then page.getLast? else none
    Except.ok (page, nextCursor)
  else Except.error "invalid cursor"

/-- The always-empty response map. -/
def emptyMap : Int → Bool := fun _ => false

/-- A request body: valid JSON with `method` and client id 7. -/
def reqBody7 : JsonValue :=
  JsonValue.obj [("id", JsonValue.num 7), ("jsonrpc", JsonValue.str "2.0"),
    ("method", JsonValue.str "ping")]

/-- The struct `json.Unmarshal` produces from `reqBody7`. -/
def reqStruct7 : BaseJSONRPCRequest := ⟨7, "2.0", "ping", none⟩

/-- A response-kind message addressed to slot 0. -/
def respMsgSlot0 : BaseJsonRpcMessage := NewBaseMessageResponse ⟨0, "2.0", JsonValue.null⟩

/-- A request-kind message (its `JsonRpcResponse` is nil). -/
def reqMsgPing : BaseJsonRpcMessage := NewBaseMessageRequest ⟨1, "2.0", "ping", none⟩

/-- A response-kind message with id 77. -/
def respMsg77 : BaseJsonRpcMessage := NewBaseMessageResponse ⟨77, "2.0", JsonValue.null⟩


/-- A map with a single pending slot 0 (one suspended `HandleMessage`). -/
def pendingMap0 : Int → Bool := fun k => decide (k = 0)

/-- A map in which every key of the probed range 0..999999 is occupied,
and key 1000000 as well. -/
def fullMap : Int → Bool := fun k => decide (0 ≤ k) && decide (k ≤ 1000000)

/-- A request body with client id 4. -/
def reqBody4 : JsonValue :=
  JsonValue.obj [("id", JsonValue.num 4), ("jsonrpc", JsonValue.str "2.0"),
    ("method", JsonValue.str "tools/call")]

/-- The struct `json.Unmarshal` produces from `reqBody4`. -/
def reqStruct4 : BaseJSONRPCRequest := ⟨4, "2.0", "tools/call", none⟩

/-- An initialized notification body. -/
def notifBody2 : JsonValue :=
  JsonValue.obj [("jsonrpc", JsonValue.str "2.0"),
    ("method", JsonValue.str "notifications/initialized")]

/-- An arbitrary message, standing in for a delivery that never happens. -/
def dummyMsg : BaseJsonRpcMessage := NewBaseMessageNotification ⟨"2.0", "x", none⟩

/-- A notification body (method present, id absent). -/
def notifBody5 : JsonValue :=
  JsonValue.obj [("jsonrpc", JsonValue.str "2.0"), ("method", JsonValue.str "noteA")]

/-- The envelope decoded from `notifBody5`. -/
def envN5 : JSONRPCCommon := ⟨"2.0", "noteA", none, none, none, none⟩

/-- A body whose `id` is a string: the request unmarshal fails on the
field type, so the cascade reaches the notification unmarshal, which
ignores the unknown `id` field. -/
def strIdBody5 : JsonValue :=
  JsonValue.obj [("id", JsonValue.str "abc"), ("jsonrpc", JsonValue.str "2.0"),
    ("method", JsonValue.str "noteB")]

/-- The notification struct decoded from `strIdBody5`. -/
def notifStruct5 : BaseJSONRPCNotification := ⟨"2.0", "noteB", none⟩

/-- A body carrying `id`, `result` and `error` at once. -/
def bothBody3 : JsonValue :=
  JsonValue.obj [("id", JsonValue.num 1), ("jsonrpc", JsonValue.str "2.0"),
    ("result", JsonValue.num 0),
    ("error", JsonValue.obj [("code", JsonValue.num 1), ("message", JsonValue.str "boom")])]

/-- The envelope decoded from `bothBody3`. -/
def envBoth3 : JSONRPCCommon := ⟨"2.0", "", some 1, none, some (JsonValue.num 0),
  some ⟨1, none, "boom"⟩⟩

/-- A plain request body with id 3 and its envelope. -/
def reqBodyW3 : JsonValue :=
  JsonValue.obj [("jsonrpc", JsonValue.str "2.0"), ("method", JsonValue.str "mW"),
    ("id", JsonValue.num 3)]

/-- The envelope decoded from `reqBodyW3`. -/
def envW3 : JSONRPCCommon := ⟨"2.0", "mW", some 3, none, none, none⟩

/-- A notification body whose method is `noteC`. -/
def notifBody7 : JsonValue :=
  JsonValue.obj [("jsonrpc", JsonValue.str "2.0"), ("method", JsonValue.str "noteC")]

/-- A request body with client id 9. -/
def reqBodyC7 : JsonValue :=
  JsonValue.obj [("id", JsonValue.num 9), ("jsonrpc", JsonValue.str "2.0"),
    ("method", JsonValue.str "tools/list")]

/-- The struct `json.Unmarshal` produces from `reqBodyC7`. -/
def reqStructC7 : BaseJSONRPCRequest := ⟨9, "2.0", "tools/list", none⟩

/-- A response-kind message addressed to slot 0, with a string result. -/
def respMsgC7 : BaseJsonRpcMessage := NewBaseMessageResponse ⟨0, "2.0", JsonValue.str "ok"⟩

/-- A message is a well-formed instance of one of the four kinds when it
was built by the corresponding smart constructor and, for the two
method-carrying kinds, its method is non-empty. -/
def wellFormedMessage (m : BaseJsonRpcMessage) : Prop :=
  (∃ r, m = NewBaseMessageRequest r ∧ r.Method ≠ "") ∨
  (∃ n, m = NewBaseMessageNotification n ∧ n.Method ≠ "") ∨
  (∃ r, m = NewBaseMessageResponse r) ∨
  (∃ e, m = NewBaseMessageError e)

/-- A well-formed request message with parameters. -/
def wfMsg9 : BaseJsonRpcMessage :=
  NewBaseMessageRequest ⟨5, "2.0", "tools/call",
    some (JsonValue.obj [("name", JsonValue.str "t")])⟩

/-- The tool names registered in non-alphabetical order by
`TestHandleListToolsPagination`. -/
def names8 : List String := ["b-tool", "a-tool", "c-tool", "e-tool", "d-tool"]

/-- The registered keys strictly greater than the cursor, in sorted
order: what a page is drawn from. -/
def restOf (names : List String) (cursor : Option String) : List String :=
  match cursor with
  | none => names.insertionSort nameLe
  | some c => (names.insertionSort nameLe).filter (fun k => !(decide (nameLe k c)))

/-- Loop invariant of the linear probe: every key skipped was occupied,
the result lies between the start and the fuel bound, and the loop stops
either by exhausting the fuel or at a free key. -/
theorem probeLoop_spec (occ : Int → Bool) (fuel : Nat) (key : Int) :
    (∀ j, key ≤ j → j < probeLoop occ fuel key → occ j = true) ∧
    key ≤ probeLoop occ fuel key ∧ probeLoop occ fuel key ≤ key + fuel ∧
    (probeLoop occ fuel key = key + fuel ∨ occ (probeLoop occ fuel key) = false) := by
  induction fuel generalizing key with
  | zero =>
      refine ⟨fun j h1 h2 => absurd (lt_of_le_of_lt h1 h2) (lt_irrefl _), le_refl _, ?_, ?_⟩
      · simp [probeLoop]
      · left; simp [probeLoop]
  | succ n ih =>
      by_cases hocc : occ key = true
      · have hstep : probeLoop occ (n + 1) key = probeLoop occ n (key + 1) := by
          simp [probeLoop, hocc]
        obtain ⟨h1, h2, h3, h4⟩ := ih (key + 1)
        refine ⟨?_, ?_, ?_, ?_⟩
        · intro j hj1 hj2
          rcases eq_or_lt_of_le hj1 with h | h
          · exact h ▸ hocc
          · exact h1 j (by omega) (hstep ▸ hj2)
        · rw [hstep]; omega
        · rw [hstep]; push_cast; omega
        · rw [hstep]; rcases h4 with h | h
          · left; rw [h]; push_cast; ring
          · right; exact h
      · have hstep : probeLoop occ (n + 1) key = key := by
          simp [probeLoop, hocc]
        refine ⟨fun j h1 h2 => ?_, by rw [hstep], by rw [hstep]; omega, ?_⟩
        · rw [hstep] at h2; omega
        · right; rw [hstep]; exact Bool.not_eq_true _ ▸ (by simpa using hocc)

/-- The allocated key is nonnegative. -/
theorem allocKey_nonneg (occ : Int → Bool) : 0 ≤ allocKey occ :=
  (probeLoop_spec occ 1000000 0).2.1

/-- The allocated key never exceeds the bound 1000000. -/
theorem allocKey_le (occ : Int → Bool) : allocKey occ ≤ 1000000 := by
  have h := (probeLoop_spec occ 1000000 0).2.2.1
  simp only [allocKey]
  push_cast at h
  omega

/-- Every key below the allocated one is occupied: the probe is linear
from 0. -/
theorem allocKey_least (occ : Int → Bool) :
    ∀ j, 0 ≤ j → j < allocKey occ → occ j = true :=
  fun j h1 h2 => (probeLoop_spec occ 1000000 0).1 j h1 h2

/-- When some key in the probed range is free, the allocated key is free:
it is distinct from every key currently in the map. -/
theorem allocKey_not_occupied (occ : Int → Bool)
    (h : ∃ k, 0 ≤ k ∧ k < 1000000 ∧ occ k = false) : occ (allocKey occ) = false := by
  obtain ⟨k, hk0, hk1, hkocc⟩ := h
  rcases (probeLoop_spec occ 1000000 0).2.2.2 with hfull | hfree
  · exfalso
    have hklt : k < probeLoop occ 1000000 0 := by
      rw [hfull]; push_cast; omega
    have : occ k = true := (probeLoop_spec occ 1000000 0).1 k hk0 hklt
    rw [this] at hkocc; exact Bool.noConfusion hkocc
  · exact hfree

/-- When every key in the probed range is occupied, the loop exhausts its
range and the key 1000000 is used, without an occupancy check. -/
theorem allocKey_full (occ : Int → Bool)
    (h : ∀ k, 0 ≤ k → k < 1000000 → occ k = true) : allocKey occ = 1000000 := by
  rcases (probeLoop_spec occ 1000000 0).2.2.2 with hfull | hfree
  · simp [allocKey, hfull]
  · have h0 := (probeLoop_spec occ 1000000 0).2.1
    have h1 := (probeLoop_spec occ 1000000 0).2.2.1
    push_cast at h1
    by_contra hne
    have hlt : probeLoop occ 1000000 0 < 1000000 := by
      simp only [allocKey] at hne
      omega
    have : occ (probeLoop occ 1000000 0) = true := h _ h0 hlt
    rw [this] at hfree; exact Bool.noConfusion hfree


/-- C1: for a body the bridge classifies as a Request, `HandleMessage`
allocates a key distinct from every key currently in the response map by
linear probe from 0, rewrites the request id to the key before invoking
the message handler, remembers the original id, is unblocked exactly by a
`Send` of a response-kind message whose id equals the key, restores the
original client id into that response, deletes the key, and returns the
correlated message. Stated for any map with a free slot in the probed
range. -/
theorem c1_request_slot_correlation (S : Int → Bool) (j : JsonValue)
    (r : BaseJSONRPCRequest) (m : BaseJsonRpcMessage) (resp : BaseJSONRPCResponse)
    (hfree : ∃ k, 0 ≤ k ∧ k < 1000000 ∧ S k = false)
    (hreq : unmarshalRequest j = some r)
    (hm : m.JsonRpcResponse = some resp)
    (hid : resp.Id = (handleMessagePhase S (some j)).key) :
    S (handleMessagePhase S (some j)).key = false ∧
    (∀ i, 0 ≤ i → i < (handleMessagePhase S (some j)).key → S i = true) ∧
    (handleMessagePhase S (some j)).calls =
      [NewBaseMessageRequest { r with Id := (handleMessagePhase S (some j)).key }] ∧
    (handleMessagePhase S (some j)).prevId = some r.Id ∧
    (sendBase (handleMessagePhase S (some j)).mapAfter m).1 =
      SendOutcome.delivered (handleMessagePhase S (some j)).key ∧
    ∃ S2, handleMessageComplete (handleMessagePhase S (some j)) m =
        some ({ m with JsonRpcResponse := some { resp with Id := r.Id } }, S2) ∧
      ∀ k, S2 k = S k := by
  have hclass : cascadeClassify (some j) = CascadeClass.request r := by
    simp [cascadeClassify, hreq]
  have hkey : (handleMessagePhase S (some j)).key = allocKey S := by
    simp [handleMessagePhase, hclass]
  have hmap : (handleMessagePhase S (some j)).mapAfter =
      fun k => if k = allocKey S then true else S k := by
    simp [handleMessagePhase, hclass]
  have hSfree : S (allocKey S) = false := allocKey_not_occupied S hfree
  refine ⟨hkey ▸ hSfree, ?_, ?_, ?_, ?_, ?_⟩
  · intro i h1 h2
    exact allocKey_least S i h1 (hkey ▸ h2)
  · simp [handleMessagePhase, hclass]
  · simp [handleMessagePhase, hclass]
  · rw [hmap, hkey]
    simp [sendBase, hm, hid, hkey]
  · refine ⟨fun k => if k = allocKey S then false else
      (handleMessagePhase S (some j)).mapAfter k, ?_, ?_⟩
    · have hprev : (handleMessagePhase S (some j)).prevId = some r.Id := by
        simp [handleMessagePhase, hclass]
      simp [handleMessageComplete, hprev, hm, hkey]
    · intro k
      rw [hmap]
      by_cases hk : k = allocKey S
      · simp [hk, hSfree.symm]
      · simp [hk]

/-- Witness for C1 at a concrete input: empty map, the request body with
client id 7, and a response sent to the allocated slot 0. -/
theorem c1_witness :
    (∃ k, 0 ≤ k ∧ k < 1000000 ∧ emptyMap k = false) ∧
    emptyMap (handleMessagePhase emptyMap (some reqBody7)).key = false ∧
    (handleMessagePhase emptyMap (some reqBody7)).calls =
      [NewBaseMessageRequest { reqStruct7 with
        Id := (handleMessagePhase emptyMap (some reqBody7)).key }] ∧
    ∃ S2, handleMessageComplete (handleMessagePhase emptyMap (some reqBody7)) respMsgSlot0 =
        some ({ respMsgSlot0 with
          JsonRpcResponse := some ⟨reqStruct7.Id, "2.0", JsonValue.null⟩ }, S2) ∧
      ∀ k, S2 k = emptyMap k := by
  have hfree : ∃ k, 0 ≤ k ∧ k < 1000000 ∧ emptyMap k = false :=
    ⟨0, le_refl 0, by norm_num, rfl⟩
  have h := c1_request_slot_correlation emptyMap reqBody7 reqStruct7 respMsgSlot0
    ⟨0, "2.0", JsonValue.null⟩ hfree rfl rfl rfl
  exact ⟨hfree, h.1, h.2.2.1, h.2.2.2.2.2⟩

/-- C10: `BaseTransport.Send` is only defined for response-kind messages.
When `JsonRpcResponse` is nil (request-, notification- or error-typed
messages) the read of `message.JsonRpcResponse.Id` dereferences a nil
pointer; for a response-kind message whose id has no registered channel it
returns an error; and it never mutates the response map. -/
theorem c10_send_nil_or_missing_channel (S : Int → Bool) (m : BaseJsonRpcMessage) :
    (m.JsonRpcResponse = none → (sendBase S m).1 = SendOutcome.nilPanic) ∧
    (∀ resp, m.JsonRpcResponse = some resp → S resp.Id = false →
      (sendBase S m).1 = SendOutcome.errNoChannel) ∧
    (sendBase S m).2 = S := by
  refine ⟨fun h => by simp [sendBase, h],
    fun resp h hfree => by simp [sendBase, h, hfree], ?_⟩
  cases hm : m.JsonRpcResponse with
  | none => simp [sendBase, hm]
  | some r =>
      simp only [sendBase, hm]
      split <;> rfl


/-- Witness for C10: on the empty map, sending a request-kind message hits
the nil dereference and sending a response to the unregistered id 77
returns the no-channel error. -/
theorem c10_witness :
    (sendBase emptyMap reqMsgPing).1 = SendOutcome.nilPanic ∧
    (sendBase emptyMap respMsg77).1 = SendOutcome.errNoChannel :=
  ⟨(c10_send_nil_or_missing_channel emptyMap reqMsgPing).1 rfl,
   (c10_send_nil_or_missing_channel emptyMap respMsg77).2.1 ⟨77, "2.0", JsonValue.null⟩ rfl rfl⟩

/-- Every branch of `HandleMessage` allocates the probed key and stores a
channel under it before attempting any deserialization. -/
theorem handleMessagePhase_alloc (S : Int → Bool) (body : Option JsonValue) :
    (handleMessagePhase S body).key = allocKey S ∧
    (handleMessagePhase S body).mapAfter = fun k => if k = allocKey S then true else S k := by
  unfold handleMessagePhase
  cases cascadeClassify body <;> simp

/-- C6 counterexample: on a transport with one call suspended on slot 0,
`Close` delivers nothing and leaves the slot pending — the suspended call
is not unblocked with a cancellation error; it stays blocked. -/
theorem c6_counterexample :
    (closeBase pendingMap0 true).deliveries = [] ∧
    (closeBase pendingMap0 true).mapAfter 0 = true ∧
    ¬ (∀ k, (closeBase pendingMap0 true).mapAfter k = true →
        ∃ p, p ∈ (closeBase pendingMap0 true).deliveries ∧ p.1 = k) := by
  refine ⟨rfl, rfl, fun h => ?_⟩
  obtain ⟨p, hp, _⟩ := h 0 rfl
  simp [closeBase] at hp

/-- C6 amended: `BaseTransport.Close` invokes the registered close handler
and returns nil; it neither removes pending slots from the response map
nor delivers to their channels, so a call suspended inside `HandleMessage`
remains blocked after `Close`. -/
theorem c6_close_leaves_pending (S : Int → Bool) (body : Option JsonValue) (h : Bool) :
    (closeBase (handleMessagePhase S body).mapAfter h).mapAfter
      (handleMessagePhase S body).key = true ∧
    (closeBase (handleMessagePhase S body).mapAfter h).deliveries = [] ∧
    (closeBase (handleMessagePhase S body).mapAfter h).closeHandlerCalled = h := by
  obtain ⟨hk, hm⟩ := handleMessagePhase_alloc S body
  refine ⟨?_, rfl, rfl⟩
  show (handleMessagePhase S body).mapAfter (handleMessagePhase S body).key = true
  rw [hm, hk]
  simp

/-- C4 counterexample: with every key of the probed range occupied (and
key 1000000 occupied too), handling a further request does not fail: the
probe stops at 1000000, the channel stored there is silently replaced,
the handler is invoked, and the HTTP layer proceeds to the blocking
receive instead of returning an error. -/
theorem c4_counterexample :
    (handleMessagePhase fullMap (some reqBody4)).key = 1000000 ∧
    fullMap 1000000 = true ∧
    (handleMessagePhase fullMap (some reqBody4)).calls =
      [NewBaseMessageRequest { reqStruct4 with Id := 1000000 }] ∧
    (handleMessagePhase fullMap (some reqBody4)).mapAfter 1000000 = true ∧
    handleRequestPhase true (Except.ok (some reqBody4)) fullMap =
      HttpPhase.waiting (handleMessagePhase fullMap (some reqBody4)) := by
  have hocc : ∀ k, 0 ≤ k → k < 1000000 → fullMap k = true := by
    intro k h1 h2
    simp only [fullMap, Bool.and_eq_true, decide_eq_true_eq]
    omega
  have hkey : allocKey fullMap = 1000000 := allocKey_full fullMap hocc
  have hclass : cascadeClassify (some reqBody4) = CascadeClass.request reqStruct4 := rfl
  refine ⟨?_, ?_, ?_, ?_, rfl⟩
  · simp [handleMessagePhase, hclass, hkey]
  · simp [fullMap]
  · simp [handleMessagePhase, hclass, hkey]
  · obtain ⟨hk, hm⟩ := handleMessagePhase_alloc fullMap (some reqBody4)
    rw [hm]
    simp [hkey]

/-- C4 amended: when the keys 0..999999 are all occupied, `HandleMessage`
does not return a slot-exhaustion error — the probe stops at key 1000000,
which is used without an occupancy check (overwriting any channel already
stored there), the handler is invoked with the id rewritten to 1000000,
and the call proceeds to the blocking receive. -/
theorem c4_exhaustion_no_error (S : Int → Bool) (j : JsonValue) (r : BaseJSONRPCRequest)
    (hocc : ∀ k, 0 ≤ k → k < 1000000 → S k = true)
    (hreq : unmarshalRequest j = some r) :
    (handleMessagePhase S (some j)).key = 1000000 ∧
    (handleMessagePhase S (some j)).calls = [NewBaseMessageRequest { r with Id := 1000000 }] ∧
    handleRequestPhase true (Except.ok (some j)) S =
      HttpPhase.waiting (handleMessagePhase S (some j)) ∧
    ∀ k, (handleMessagePhase S (some j)).mapAfter k = if k = 1000000 then true else S k := by
  have hkey := allocKey_full S hocc
  have hclass : cascadeClassify (some j) = CascadeClass.request r := by
    simp [cascadeClassify, hreq]
  refine ⟨by simp [handleMessagePhase, hclass, hkey],
    by simp [handleMessagePhase, hclass, hkey], rfl, ?_⟩
  intro k
  obtain ⟨hk, hm⟩ := handleMessagePhase_alloc S (some j)
  rw [hm, hkey]

/-- Witness for the amended C4 at the concrete saturated map. -/
theorem c4_witness :
    (∀ k, 0 ≤ k → k < 1000000 → fullMap k = true) ∧
    unmarshalRequest reqBody4 = some reqStruct4 ∧
    (handleMessagePhase fullMap (some reqBody4)).key = 1000000 := by
  have hocc : ∀ k, 0 ≤ k → k < 1000000 → fullMap k = true := by
    intro k h1 h2
    simp only [fullMap, Bool.and_eq_true, decide_eq_true_eq]
    omega
  exact ⟨hocc, rfl, (c4_exhaustion_no_error fullMap reqBody4 reqStruct4 hocc rfl).1⟩

/-- C2, evaluation at the failing inputs. `BaseTransport.HandleMessage` on
the body `5` (valid JSON matching none of the four shapes): a slot is
allocated, no handler call is made, `prevId` stays unset, and the call
proceeds to the blocking receive on a channel to which no `Send` can ever
correspond — the slot is never deleted. The `baseTransport.handleMessage`
variant on a notification body: the call returns nil while the slot
allocated at entry is still in the map. -/
theorem c2_slot_leak_eval :
    cascadeClassify (some (JsonValue.num 5)) = CascadeClass.undeserialized ∧
    (handleMessagePhase emptyMap (some (JsonValue.num 5))).calls = [] ∧
    (handleMessagePhase emptyMap (some (JsonValue.num 5))).prevId = none ∧
    (handleMessagePhase emptyMap (some (JsonValue.num 5))).mapAfter 0 = true ∧
    (handleMessage2 emptyMap (some notifBody2) dummyMsg).ret = Except.ok none ∧
    (handleMessage2 emptyMap (some notifBody2) dummyMsg).finalMap 0 = true ∧
    (handleMessage2 emptyMap (some notifBody2) dummyMsg).calls =
      [NewBaseMessageNotification ⟨"2.0", "notifications/initialized", none⟩] :=
  ⟨rfl, rfl, rfl, rfl, rfl, rfl, rfl⟩

/-- C5 counterexample: the body `{"jsonrpc":"2.0","method":"noteA"}`
decodes as a Notification under the envelope discrimination, yet
`BaseTransport.HandleMessage` allocates a slot for it (the map gains
key 0), deserializes it as a Request (the handler receives a request-kind
message), sets `prevId`, and therefore blocks instead of returning an
empty reply. -/
theorem c5_counterexample :
    unmarshalCommon notifBody5 = some envN5 ∧
    classifyCommon envN5 = CommonClass.notif ∧
    cascadeClassify (some notifBody5) = CascadeClass.request ⟨0, "2.0", "noteA", none⟩ ∧
    (handleMessagePhase emptyMap (some notifBody5)).calls =
      [NewBaseMessageRequest ⟨0, "2.0", "noteA", none⟩] ∧
    (handleMessagePhase emptyMap (some notifBody5)).prevId = some 0 ∧
    (handleMessagePhase emptyMap (some notifBody5)).mapAfter 0 = true ∧
    emptyMap 0 = false :=
  ⟨rfl, rfl, rfl, rfl, rfl, rfl, rfl⟩

/-- C5 amended: a slot is allocated for every body. A body with `method`
and no `id` is deserialized as a Request by the cascade; a body reaches
the notification branch only when the request unmarshal fails (e.g. a
non-numeric `id`), and then the handler is invoked immediately with the
notification — but the slot has been allocated regardless, and the call
still blocks on it: it returns only once a message is delivered. -/
theorem c5_nonrequest_alloc_and_block (S : Int → Bool) (j : JsonValue)
    (n : BaseJSONRPCNotification)
    (hreqfail : unmarshalRequest j = none)
    (hnot : unmarshalNotification j = some n) :
    (handleMessagePhase S (some j)).calls = [NewBaseMessageNotification n] ∧
    (handleMessagePhase S (some j)).prevId = none ∧
    (handleMessagePhase S (some j)).mapAfter (handleMessagePhase S (some j)).key = true ∧
    ∀ m, handleMessageComplete (handleMessagePhase S (some j)) m =
      some (m, fun k => if k = (handleMessagePhase S (some j)).key then false
        else (handleMessagePhase S (some j)).mapAfter k) := by
  have hclass : cascadeClassify (some j) = CascadeClass.notif n := by
    simp [cascadeClassify, hreqfail, hnot]
  obtain ⟨hk, hm⟩ := handleMessagePhase_alloc S (some j)
  have hprev : (handleMessagePhase S (some j)).prevId = none := by
    simp [handleMessagePhase, hclass]
  refine ⟨by simp [handleMessagePhase, hclass], hprev, ?_, ?_⟩
  · rw [hm, hk]
    simp
  · intro m
    simp [handleMessageComplete, hprev]

/-- Witness for the amended C5 at the string-id body. -/
theorem c5_witness :
    unmarshalRequest strIdBody5 = none ∧
    unmarshalNotification strIdBody5 = some notifStruct5 ∧
    (handleMessagePhase emptyMap (some strIdBody5)).calls =
      [NewBaseMessageNotification notifStruct5] ∧
    (handleMessagePhase emptyMap (some strIdBody5)).mapAfter
      (handleMessagePhase emptyMap (some strIdBody5)).key = true := by
  have h := c5_nonrequest_alloc_and_block emptyMap strIdBody5 notifStruct5 rfl rfl
  exact ⟨rfl, rfl, h.1, h.2.2.1⟩

/-- C3 counterexample: on a body carrying `id`, `result` and `error` at
once, the decoder classifies the message as a Response — the `result`
case of the switch precedes the `error` case — while the claimed priority
order (error before result) yields an Error. -/
theorem c3_counterexample :
    unmarshalCommon bothBody3 = some envBoth3 ∧
    classifyCommon envBoth3 = CommonClass.response 1 (JsonValue.num 0) ∧
    specClassify envBoth3 = CommonClass.errorResp 1 ⟨1, none, "boom"⟩ ∧
    decodeMessage bothBody3 = some (NewBaseMessageResponse ⟨1, "2.0", JsonValue.num 0⟩) :=
  ⟨rfl, rfl, rfl, rfl⟩

/-- C3 amended: the discrimination implemented by the envelope decoder:
method with id ⇒ Request; method without id ⇒ Notification; result with
id ⇒ Response; error with id and no result ⇒ Error (result is checked
before error); a body recognized as none of the four, or not valid JSON,
fails with a decode error and is not delivered to the handler. -/
theorem c3_discrimination (S : Int → Bool) (d : BaseJsonRpcMessage)
    (e : JSONRPCCommon) (j : JsonValue)
    (hj : unmarshalCommon j = some e) :
    (e.Method ≠ "" → e.Id.isSome → classifyCommon e = CommonClass.request (e.Id.getD 0)) ∧
    (e.Method ≠ "" → e.Id = none → classifyCommon e = CommonClass.notif) ∧
    (e.Method = "" → e.Id.isSome → e.Result.isSome →
      classifyCommon e = CommonClass.response (e.Id.getD 0) (e.Result.getD JsonValue.null)) ∧
    (e.Method = "" → e.Id.isSome → e.Result = none → e.Error.isSome →
      classifyCommon e = CommonClass.errorResp (e.Id.getD 0) (e.Error.getD ⟨0, none, ""⟩)) ∧
    (classifyCommon e = CommonClass.unrecognized →
      (handleMessage2 S (some j) d).ret =
        Except.error "failed to unmarshal JSON-RPC message, unrecognized type" ∧
      (handleMessage2 S (some j) d).calls = []) ∧
    ((handleMessage2 S none d).ret = Except.error "failed to parse JSON" ∧
      (handleMessage2 S none d).calls = []) := by
  refine ⟨?_, ?_, ?_, ?_, ?_, rfl, rfl⟩
  · intro hM hId
    simp [classifyCommon, hM, hId]
  · intro hM hId
    simp [classifyCommon, hM, hId]
  · intro hM hId hR
    simp [classifyCommon, hM, hId, hR]
  · intro hM hId hR hE
    simp [classifyCommon, hM, hId, hR, hE]
  · intro hcl
    constructor <;> simp [handleMessage2, hj, hcl]

/-- Witness for the amended C3: a plain request body classifies as a
Request, and an unparseable body produces the parse error. -/
theorem c3_witness :
    unmarshalCommon reqBodyW3 = some envW3 ∧
    classifyCommon envW3 = CommonClass.request 3 ∧
    (handleMessage2 emptyMap none dummyMsg).ret = Except.error "failed to parse JSON" := by
  have h := c3_discrimination emptyMap dummyMsg envW3 reqBodyW3 rfl
  exact ⟨rfl, h.1 (by decide) rfl, h.2.2.2.2.2.1⟩

/-- C7 counterexample: a POST body that reads fine but is not a JSON-RPC
shape does not produce a 400 — the handler enters the bridge, allocates a
slot, makes no handler call, and suspends on the channel (no HTTP status
is produced). A notification body does not produce an empty 200 — the
cascade deserializes it as a Request (`prevId` is set), so the handler
suspends awaiting the correlated response. -/
theorem c7_counterexample :
    handleRequestPhase true (Except.ok none) emptyMap ≠ HttpPhase.earlyStatus 400 ∧
    handleRequestPhase true (Except.ok none) emptyMap =
      HttpPhase.waiting (handleMessagePhase emptyMap none) ∧
    (handleMessagePhase emptyMap none).calls = [] ∧
    (handleMessagePhase emptyMap none).mapAfter 0 = true ∧
    cascadeClassify (some notifBody7) = CascadeClass.request ⟨0, "2.0", "noteC", none⟩ ∧
    (handleMessagePhase emptyMap (some notifBody7)).prevId = some 0 := by
  refine ⟨?_, rfl, rfl, rfl, rfl, rfl⟩
  simp [handleRequestPhase]

/-- C7 amended: non-POST yields 405; a body whose read fails yields 400;
every readable body enters the bridge; a body matching no shape makes no
handler call (and the call then blocks with no status); and a body holding
a Request yields, once the correlated response is delivered, a 200 whose
body is the marshaled response with the original client id restored. -/
theorem c7_http_statuses (S : Int → Bool) (rd : Except Unit (Option JsonValue))
    (body : Option JsonValue) (j : JsonValue) (r : BaseJSONRPCRequest)
    (m : BaseJsonRpcMessage) (resp : BaseJSONRPCResponse)
    (hfree : ∃ k, 0 ≤ k ∧ k < 1000000 ∧ S k = false)
    (hreq : unmarshalRequest j = some r)
    (hm : m.JsonRpcResponse = some resp)
    (hid : resp.Id = (handleMessagePhase S (some j)).key) :
    handleRequestPhase false rd S = HttpPhase.earlyStatus 405 ∧
    handleRequestPhase true (Except.error ()) S = HttpPhase.earlyStatus 400 ∧
    handleRequestPhase true (Except.ok body) S = HttpPhase.waiting (handleMessagePhase S body) ∧
    (cascadeClassify body = CascadeClass.undeserialized →
      (handleMessagePhase S body).calls = []) ∧
    (sendBase (handleMessagePhase S (some j)).mapAfter m).1 =
      SendOutcome.delivered (handleMessagePhase S (some j)).key ∧
    ∃ S2, handleRequestComplete (handleMessagePhase S (some j)) m =
        some (200, marshalMessage { m with JsonRpcResponse := some { resp with Id := r.Id } }, S2) ∧
      ∀ k, S2 k = S k := by
  have hclass : cascadeClassify (some j) = CascadeClass.request r := by
    simp [cascadeClassify, hreq]
  have hprev : (handleMessagePhase S (some j)).prevId = some r.Id := by
    simp [handleMessagePhase, hclass]
  obtain ⟨hk, hmp⟩ := handleMessagePhase_alloc S (some j)
  have hSfree : S (allocKey S) = false := allocKey_not_occupied S hfree
  refine ⟨rfl, rfl, rfl, ?_, ?_, ?_⟩
  · intro hu
    simp [handleMessagePhase, hu]
  · rw [hmp, hk]
    simp [sendBase, hm, hid, hk]
  · refine ⟨fun k => if k = (handleMessagePhase S (some j)).key then false
      else (handleMessagePhase S (some j)).mapAfter k, ?_, ?_⟩
    · simp [handleRequestComplete, handleMessageComplete, hprev, hm]
    · intro k
      rw [hmp, hk]
      by_cases hkk : k = allocKey S
      · simp [hkk, hSfree.symm]
      · simp [hkk]

/-- Witness for the amended C7 at concrete inputs: the three statuses and
the correlated 200 reply with the client id 9 restored. -/
theorem c7_witness :
    (∃ k, 0 ≤ k ∧ k < 1000000 ∧ emptyMap k = false) ∧
    handleRequestPhase false (Except.ok (some reqBodyC7)) emptyMap = HttpPhase.earlyStatus 405 ∧
    handleRequestPhase true (Except.error ()) emptyMap = HttpPhase.earlyStatus 400 ∧
    ∃ S2, handleRequestComplete (handleMessagePhase emptyMap (some reqBodyC7)) respMsgC7 =
        some (200, marshalMessage { respMsgC7 with
          JsonRpcResponse := some ⟨9, "2.0", JsonValue.str "ok"⟩ }, S2) ∧
      ∀ k, S2 k = emptyMap k := by
  have hfree : ∃ k, 0 ≤ k ∧ k < 1000000 ∧ emptyMap k = false :=
    ⟨0, le_refl 0, by norm_num, rfl⟩
  have h := c7_http_statuses emptyMap (Except.ok (some reqBodyC7)) (some reqBodyC7) reqBodyC7
    reqStructC7 respMsgC7 ⟨0, "2.0", JsonValue.str "ok"⟩ hfree rfl rfl rfl
  exact ⟨hfree, h.1, h.2.1, h.2.2.2.2.2⟩

/-- C9: for every well-formed message of one of the four kinds, decoding
the marshaled bytes reconstructs the message itself, of the same kind. -/
theorem c9_roundtrip (m : BaseJsonRpcMessage) (h : wellFormedMessage m) :
    decodeMessage (marshalMessage m) = some m := by
  rcases h with ⟨r, rfl, hM⟩ | ⟨n, rfl, hM⟩ | ⟨r, rfl⟩ | ⟨e, rfl⟩
  · obtain ⟨id, jr, me, p⟩ := r
    simp only at hM
    cases p <;>
      simp [marshalMessage, NewBaseMessageRequest, marshalRequest, optField, decodeMessage,
        unmarshalCommon, getStrField, getIdPtrField, getErrPtrField, getRawField, lookupField,
        classifyCommon, hM]
  · obtain ⟨jr, me, p⟩ := n
    simp only at hM
    cases p <;>
      simp [marshalMessage, NewBaseMessageNotification, marshalNotification, optField,
        decodeMessage, unmarshalCommon, getStrField, getIdPtrField, getErrPtrField, getRawField,
        lookupField, classifyCommon, hM]
  · obtain ⟨id, jr, res⟩ := r
    simp [marshalMessage, NewBaseMessageResponse, marshalResponse, decodeMessage,
      unmarshalCommon, getStrField, getIdPtrField, getErrPtrField, getRawField, lookupField,
      classifyCommon]
  · obtain ⟨⟨code, dat, msg⟩, id, jr⟩ := e
    cases dat <;>
      simp [marshalMessage, NewBaseMessageError, marshalError, marshalErrorInner, optField,
        decodeMessage, unmarshalCommon, getStrField, getIdPtrField, getErrPtrField,
        unmarshalErrorInner, getIntField, getRawField, lookupField, classifyCommon]

/-- Witness for C9 at a concrete request message with parameters. -/
theorem c9_witness :
    wellFormedMessage wfMsg9 ∧ decodeMessage (marshalMessage wfMsg9) = some wfMsg9 := by
  have hwf : wellFormedMessage wfMsg9 :=
    Or.inl ⟨⟨5, "2.0", "tools/call", some (JsonValue.obj [("name", JsonValue.str "t")])⟩,
      rfl, by decide⟩
  exact ⟨hwf, c9_roundtrip wfMsg9 hwf⟩

/-- On a sorted list, dropping the keys at most the cursor is the same as
filtering them out: the page really starts at the first key strictly
greater than the cursor and is a consecutive run. -/
theorem dropWhile_le_eq_filter (c : String) (l : List String)
    (hs : List.Sorted nameLe l) :
    l.dropWhile (fun k => decide (nameLe k c)) =
      l.filter (fun k => !(decide (nameLe k c))) := by
  induction l with
  | nil => rfl
  | cons a t ih =>
      rw [List.sorted_cons] at hs
      obtain ⟨ha, ht⟩ := hs
      by_cases hpa : nameLe a c
      · rw [List.dropWhile_cons_of_pos (by simpa using hpa),
          List.filter_cons_of_neg (by simpa using hpa)]
        exact ih ht
      · rw [List.dropWhile_cons_of_neg (by simpa using hpa),
          List.filter_cons_of_pos (by simpa using hpa)]
        congr 1
        symm
        rw [List.filter_eq_self]
        intro x hx
        simp only [Bool.not_eq_true', decide_eq_false_iff_not]
        intro hxc
        exact hpa (le_trans (ha x hx) hxc)

/-- C8: the list operation. An unrecognized cursor fails with the
invalid-cursor error. Otherwise the returned page consists of the first
`limit` registered keys strictly greater than the cursor in lexicographic
order (all keys when no cursor); the page is sorted, every element is
strictly greater than the cursor, at most `limit` keys are returned, and
`nextCursor` is the last returned key exactly when further keys remain. -/
theorem c8_list_pagination (names : List String) (cursor : Option String) (lim : Nat) :
    (∀ c, cursor = some c → c ∉ names →
      handleListTools names cursor (some lim) = Except.error "invalid cursor") ∧
    ((∀ c, cursor = some c → c ∈ names) →
      handleListTools names cursor (some lim) =
        Except.ok ((restOf names cursor).take lim,
          if ((restOf names cursor).take lim).length < (restOf names cursor).length
          then ((restOf names cursor).take lim).getLast? else none) ∧
      List.Sorted nameLe ((restOf names cursor).take lim) ∧
      (∀ c, cursor = some c → ∀ x ∈ (restOf names cursor).take lim, ¬ nameLe x c) ∧
      ((restOf names cursor).take lim).length ≤ lim) := by
  have hsorted : List.Sorted nameLe (names.insertionSort nameLe) :=
    List.sorted_insertionSort nameLe names
  constructor
  · intro c hc hcnot
    subst hc
    simp [handleListTools, hcnot]
  · intro hvalid
    have hall : cursor.all (fun c => decide (c ∈ names)) = true := by
      cases cursor with
      | none => rfl
      | some c => simpa using hvalid c rfl
    have hrestSorted : List.Sorted nameLe (restOf names cursor) := by
      cases cursor with
      | none => exact hsorted
      | some c => exact List.Pairwise.filter _ hsorted
    refine ⟨?_, ?_, ?_, ?_⟩
    · cases cursor with
      | none => simp [handleListTools, restOf]
      | some c =>
          simp only [handleListTools, hall, if_true, restOf]
          rw [dropWhile_le_eq_filter c _ hsorted]
    · exact List.Pairwise.sublist (List.take_sublist lim _) hrestSorted
    · intro c hc x hx
      subst hc
      have hx' := List.take_subset lim _ hx
      simp only [restOf, List.mem_filter, Bool.not_eq_true', decide_eq_false_iff_not] at hx'
      exact hx'.2
    · rw [List.length_take]
      exact min_le_left _ _

/-- Witness for C8: the spec's pagination scenario on the tool names
registered by the test, plus the invalid-cursor failure, via the theorem
and by direct evaluation. -/
theorem c8_witness :
    ("b-tool" ∈ names8) ∧
    handleListTools names8 none (some 2) = Except.ok (["a-tool", "b-tool"], some "b-tool") ∧
    handleListTools names8 (some "b-tool") (some 2) =
      Except.ok (["c-tool", "d-tool"], some "d-tool") ∧
    handleListTools names8 (some "d-tool") (some 2) = Except.ok (["e-tool"], none) ∧
    handleListTools names8 (some "invalid-cursor") (some 2) = Except.error "invalid cursor" ∧
    (∀ x ∈ (restOf names8 (some "b-tool")).take 2, ¬ nameLe x "b-tool") := by
  refine ⟨by decide, rfl, rfl, rfl, ?_, ?_⟩
  · exact (c8_list_pagination names8 (some "invalid-cursor") 2).1 "invalid-cursor" rfl (by decide)
  · exact ((c8_list_pagination names8 (some "b-tool") 2).2
      (fun c hc => by simp only [Option.some.injEq] at hc; subst hc; decide)).2.2.1 "b-tool" rfl
